import Mathlib

set_option maxHeartbeats 1000000

/-!
Shallow embedding of the booking client core:
availability resolution (services/mockApi.ts, fetchAvailability),
the booking submission transaction (services/mockApi.ts, submitBooking),
the customer profile lookup and App init gate (services/mockApi.ts
getCustomerProfile, App.tsx init), and the calendar slot cutoff filter
(BookingCalendar: bookingCutoff, checkSlotTime).

External calls (the remote store, the webhook) are modelled by passing
their outcomes as explicit arguments: a fetch is an Except or Option
value, a write failure is a Bool oracle, and the store is an explicit
record threaded through submitBooking.  Instants are minutes on a
global timeline (a calendar day is its midnight instant; 48 hours is
2880 minutes), so strict instant comparison mirrors isAfter.

The JS string comparison (used by sort() and by date-string ordering)
is embedded as an executable lexicographic comparison on character
lists; the lemmas strLtb_iff and strLeb_iff identify it with the
standard lexicographic order on String.  Slot identifiers and the
yyyy-MM-dd dates are ASCII, where the UTF-16 code-unit order used by
JS agrees with the code-point order used here.
-/

/-- A row of the availabilities table: admin-configured slots for one date. -/
structure ConfigRow where
  date : String
  slots : List String
deriving DecidableEq

/-- A row returned by the get_occupied_slots query: one non-cancelled booking. -/
structure OccupiedRow where
  booking_date : String
  booking_time : String
deriving DecidableEq

/-- The per-day availability record produced by fetchAvailability (types.ts). -/
structure DayAvailability where
  date : String
  isAvailable : Bool
  bookedCount : Nat
  availableSlots : List String
  totalSlots : Nat
deriving DecidableEq

/-- Executable strict lexicographic comparison on character lists. -/
def lexLt : List Char → List Char → Bool
  | [], [] => false
  | [], _ :: _ => true
  | _ :: _, [] => false
  | a :: as, b :: bs => if a < b then true else if b < a then false else lexLt as bs

/-- Executable strict lexicographic comparison of strings: the JS
comparison a < b of the default sort comparator. -/
def strLtb (a b : String) : Bool := lexLt a.data b.data

/-- Executable lexicographic a less-or-equal b on strings. -/
def strLeb (a b : String) : Bool := ! lexLt b.data a.data

/-- Gregorian leap year rule, as produced by the JS Date arithmetic
used by endOfMonth. -/
def isLeapYear (y : Nat) : Bool :=
  (y % 4 == 0 && y % 100 != 0) || y % 400 == 0

/-- Number of days of month m (0-based, January = 0) of year y; this is
endOfMonth(new Date(y, m, 1)).getDate(). -/
def daysInMonth (y m : Nat) : Nat :=
  if m = 1 then (if isLeapYear y then 29 else 28)
  else if m = 3 ∨ m = 5 ∨ m = 8 ∨ m = 10 then 30
  else 31

/-- Left-pad the decimal representation of n with zeros to width w. -/
def padNat (w n : Nat) : String :=
  String.mk (List.replicate (w - (toString n).length) '0') ++ toString n

/-- format(new Date(y, m, d), "yyyy-MM-dd") for 0-based month m. -/
def fmtDate (y m d : Nat) : String :=
  padNat 4 y ++ "-" ++ padNat 2 (m + 1) ++ "-" ++ padNat 2 d

/-- The configMap built by the forEach over the configured rows:
later rows overwrite earlier ones, so the lookup returns the slots of
the last row carrying the date. -/
def configLookup (rows : List ConfigRow) (d : String) : Option (List String) :=
  rows.foldl (fun acc r => if r.date == d then some r.slots else acc) none

/-- The bookingsMap entry for date d: the booking_time of every occupied
row for d, in row order (the forEach pushes them in order). -/
def occupiedFor (bookings : List OccupiedRow) (d : String) : List String :=
  (bookings.filter (fun b => b.booking_date == d)).map (fun b => b.booking_time)

/-- The record pushed for a day with no configured slots (the rest-day branch). -/
def closedDay (d : String) : DayAvailability :=
  { date := d, isAvailable := false, bookedCount := 0, availableSlots := [], totalSlots := 0 }

/-- One iteration of the per-day loop of fetchAvailability.  The JS
sort() default comparator is the lexicographic string comparison,
embedded by strLeb. -/
def mkDay (dateStr : String) (rows : List ConfigRow) (bookings : List OccupiedRow) :
    DayAvailability :=
  match configLookup rows dateStr with
  | none => closedDay dateStr
  | some configuredSlots =>
    if configuredSlots.length = 0 then closedDay dateStr
    else
      let occupiedSlots := occupiedFor bookings dateStr
      let availableSlots := configuredSlots.filter (fun slot => ! occupiedSlots.contains slot)
      { date := dateStr
        isAvailable := decide (availableSlots.length > 0)
        bookedCount := occupiedSlots.length
        availableSlots := List.insertionSort (fun a b => strLeb a b = true) availableSlots
        totalSlots := configuredSlots.length }

/-- fetchAvailability (services/mockApi.ts).  The two remote reads are
passed in as outcomes: availabilityResult is the configured-slots fetch
(error makes the whole call throw), bookingsData is the data field of the
occupied-slots fetch (null on failure, modelled as none, replaced by []).
The year/month pair is normalised the way new Date(year, month, 1) does
for non-negative month. -/
def fetchAvailability (year month : Nat)
    (availabilityResult : Except String (List ConfigRow))
    (bookingsData : Option (List OccupiedRow)) :
    Except String (List DayAvailability) :=
  match availabilityResult with
  | .error _ => .error "無法讀取排班資料"
  | .ok configuredDays =>
    let bookings := bookingsData.getD []
    let ny := year + month / 12
    let nm := month % 12
    .ok ((List.range' 1 (daysInMonth ny nm)).map
      (fun i => mkDay (fmtDate ny nm i) configuredDays bookings))

/-- Spec-side definition, following the spec wording for bookedCount:
the cardinality of the intersection of the occupied slots with the
configured slots, as sets (duplicate occupied entries collapsed). -/
def specBookedCount (occupied configured : List String) : Nat :=
  ((occupied.filter (fun s => configured.contains s)).dedup).length

/-- A customers row (types.ts Customer, plus the updated_at column
written by the upsert; member_code is nullable). -/
structure Customer where
  user_id : String
  name : String
  phone : String
  is_blacklisted : Bool
  member_code : Option String
  updated_at : Nat
deriving DecidableEq

/-- The customer upsert payload built by submitBooking: member_code is
present only when the draft supplies a non-empty code. -/
structure CustomerPayload where
  user_id : String
  name : String
  phone : String
  updated_at : Nat
  member_code : Option String
deriving DecidableEq

/-- A bookings row as inserted by submitBooking. -/
structure BookingRow where
  user_id : String
  customer_name_snapshot : String
  customer_phone_snapshot : String
  service_type : String
  booking_date : String
  booking_time : String
  remove_gel : Bool
  status : String
  modification_count : Nat
deriving DecidableEq

/-- The draft passed to submitBooking (the payload built in App.tsx
handleFinalSubmit).  An absent member code is the empty string. -/
structure SubmitData where
  userId : String
  memberCode : String
  date : String
  time : String
  name : String
  phone : String
  serviceType : String
  removeGel : Bool
  lineDisplayName : String
deriving DecidableEq

/-- The external store state touched by the submission: the customers
table and the bookings table. -/
structure Store where
  customers : List Customer
  bookings : List BookingRow
deriving DecidableEq

/-- The SERVICES constant (types.ts). -/
structure Service where
  id : String
  label : String
deriving DecidableEq

def SERVICES : List Service :=
  [⟨"6_finger_creative", "6指自由創作"⟩,
   ⟨"10_finger_creative", "10指自由創作"⟩,
   ⟨"monthly_special", "本月精選"⟩,
   ⟨"classic_special", "典藏精選"⟩,
   ⟨"magnetic", "貓眼"⟩]

/-- The customerPayload object of submitBooking: member_code is included
only when data.memberCode is truthy, i.e. a non-empty string. -/
def customerPayload (data : SubmitData) (now : Nat) : CustomerPayload :=
  { user_id := data.userId
    name := data.name
    phone := data.phone
    updated_at := now
    member_code := if data.memberCode = "" then none else some data.memberCode }

/-- Upsert keyed on user_id, modelling the data-access interface of the
external store: insert the row if the key is absent; otherwise update
exactly the supplied columns, leaving columns missing from the payload
(member_code when none, is_blacklisted always) unchanged. -/
def upsertCustomer (p : CustomerPayload) (cs : List Customer) : List Customer :=
  if cs.any (fun c => c.user_id == p.user_id) then
    cs.map (fun c =>
      if c.user_id == p.user_id then
        { c with
          name := p.name
          phone := p.phone
          updated_at := p.updated_at
          member_code := match p.member_code with
            | some mc => some mc
            | none => c.member_code }
      else c)
  else
    cs ++ [{ user_id := p.user_id, name := p.name, phone := p.phone,
             is_blacklisted := false, member_code := p.member_code,
             updated_at := p.updated_at }]

/-- The bookingPayload object of submitBooking. -/
def bookingPayload (data : SubmitData) : BookingRow :=
  { user_id := data.userId
    customer_name_snapshot := data.name
    customer_phone_snapshot := data.phone
    service_type := data.serviceType
    booking_date := data.date
    booking_time := data.time
    remove_gel := data.removeGel
    status := "confirmed"
    modification_count := 0 }

/-- The webhook payload: the booking fields plus service label, member
code and preferred display name. -/
structure N8nPayload where
  booking : BookingRow
  service_label : String
  member_code : String
  line_display_name : String
deriving DecidableEq

/-- SERVICES.find(s => s.id === serviceType)?.label || serviceType. -/
def serviceLabelFor (serviceType : String) : String :=
  match SERVICES.find? (fun s => s.id == serviceType) with
  | some s => s.label
  | none => serviceType

def n8nPayload (data : SubmitData) (bp : BookingRow) : N8nPayload :=
  { booking := bp
    service_label := serviceLabelFor data.serviceType
    member_code := data.memberCode
    line_display_name := if data.lineDisplayName = "" then data.name else data.lineDisplayName }

/-- submitBooking (services/mockApi.ts).  Write failures of the external
store are injected through the custFail / bookFail oracles; notifyFail
covers any failure while constructing or dispatching the webhook payload
(the try/catch plus the fetch catch handler, both of which only log).
Returns the final store, the webhook payloads actually dispatched, and
the caller-visible result. -/
def submitBooking (data : SubmitData) (custFail bookFail notifyFail : Bool)
    (webhookUrl : Option String) (now : Nat) (s : Store) :
    Store × List N8nPayload × Except String Unit :=
  if custFail then (s, [], .error "無法建立顧客資料")
  else
    let s1 : Store := { s with customers := upsertCustomer (customerPayload data now) s.customers }
    if bookFail then (s1, [], .error "booking insert failed")
    else
      let bp := bookingPayload data
      let s2 : Store := { s1 with bookings := s1.bookings ++ [bp] }
      let sent := match webhookUrl with
        | none => []
        | some _ => if notifyFail then [] else [n8nPayload data bp]
      (s2, sent, .ok ())

/-- Find a customer row by user_id. -/
def lookupCustomer (cs : List Customer) (uid : String) : Option Customer :=
  cs.find? (fun c => c.user_id == uid)

/-- The lead time of the calendar cutoff, in hours (addHours(today, 48)). -/
def LEAD_HOURS : Nat := 48

/-- bookingCutoff (BookingCalendar): now plus the lead time, in minutes. -/
def bookingCutoff (now : Nat) : Nat := now + LEAD_HOURS * 60

/-- Split a character list at the colon separators, as split(":"). -/
def splitOnColon : List Char → List Char → List (List Char)
  | [], acc => [acc.reverse]
  | c :: cs, acc =>
    if c = ':' then acc.reverse :: splitOnColon cs []
    else splitOnColon cs (c :: acc)

/-- Decimal parse of a non-empty digit sequence, as the Number
conversion applied to an HH or MM field. -/
def parseNatAux : List Char → Nat → Option Nat
  | [], acc => some acc
  | c :: cs, acc =>
    if c.isDigit then parseNatAux cs (acc * 10 + (c.toNat - 48))
    else none

def parseNatChars (l : List Char) : Option Nat :=
  match l with
  | [] => none
  | _ => parseNatAux l 0

/-- Minute offset within the day denoted by an HH:MM slot identifier:
timeStr.split(":") with the first two parts converted to numbers.  A
string whose hour or minute part is not a digit sequence makes the JS
slot date invalid and the comparison false, modelled as none. -/
def slotMinutes (timeStr : String) : Option Nat :=
  match splitOnColon timeStr.data [] with
  | hs :: ms :: _ =>
    match parseNatChars hs, parseNatChars ms with
    | some h, some m => some (60 * h + m)
    | _, _ => none
  | _ => none

/-- checkSlotTime (BookingCalendar): the slot instant (the day cell date
with hours and minutes set from the slot string) is strictly after the
cutoff.  dayStart is the midnight instant of the cell date, in minutes. -/
def checkSlotTime (now dayStart : Nat) (timeStr : String) : Bool :=
  match slotMinutes timeStr with
  | some t => decide (bookingCutoff now < dayStart + t)
  | none => false

/-- The slots the calendar actually offers for a day: the nominally
available slots whose buttons are not disabled/hidden, i.e. those
passing checkSlotTime. -/
def offeredSlots (now dayStart : Nat) (availableSlots : List String) : List String :=
  availableSlots.filter (fun slot => checkSlotTime now dayStart slot)

/-- getCustomerProfile (services/mockApi.ts): empty userId short-circuits
to null; a query error is logged and null is returned; otherwise the
maybeSingle result (possibly null) is returned. -/
def getCustomerProfile (userId : String) (queryResult : Except String (Option Customer)) :
    Option Customer :=
  if userId = "" then none
  else
    match queryResult with
    | .error _ => none
    | .ok d => d

/-- The App state set by the init effect after the profile check. -/
structure InitFlags where
  isReturningUser : Bool
  isBlacklisted : Bool
  memberCode : String
  name : String
  phone : String
deriving DecidableEq

/-- App.tsx init, steps after getCustomerProfile: a present profile marks
a returning user, copies its blacklist flag, and keeps its member code
unless that code is falsy (absent or empty), in which case a fresh code
is generated; a null profile is a brand-new customer with a fresh code
and the blacklist flag left false. -/
def appInit (profile : Option Customer) (displayName freshCode : String) : InitFlags :=
  match profile with
  | some p =>
    { isReturningUser := true
      isBlacklisted := p.is_blacklisted
      memberCode := match p.member_code with
        | some mc => if mc = "" then freshCode else mc
        | none => freshCode
      name := if p.name = "" then "" else p.name
      phone := if p.phone = "" then "" else p.phone }
  | none =>
    { isReturningUser := false
      isBlacklisted := false
      memberCode := freshCode
      name := if displayName = "" then "" else displayName
      phone := "" }

/-! Concrete inputs used by counterexamples and witnesses. -/

/-- Concrete month input refuting the C1 invariant: 2024-05-20 is
configured with the single slot 11:00, and one occupied row records the
slot 09:00 for that date, outside the configured set. -/
def c1Rows : List ConfigRow := [⟨"2024-05-20", ["11:00"]⟩]

def c1Books : List OccupiedRow := [⟨"2024-05-20", "09:00"⟩]

def c1Days : List DayAvailability :=
  (fetchAvailability 2024 4 (Except.ok c1Rows) (some c1Books)).toOption.getD []

def c1Rec : DayAvailability := c1Days.getD 19 (closedDay "")

/-- Store and draft refuting C2: the identity U1 already has the stored
member code CN-AAAA, and a later submission from the same identity
supplies the non-empty code CN-BBBB. -/
def c2Store : Store :=
  { customers := [⟨"U1", "Amy", "0912345678", false, some "CN-AAAA", 0⟩], bookings := [] }

def c2Data : SubmitData :=
  ⟨"U1", "CN-BBBB", "2024-05-20", "11:00", "Amy", "0912345678", "magnetic", false, "Amy"⟩

/-- Witness input for the amended C2: submission with an empty member
code from an identity holding the stored code CN-CCCC. -/
def c2wStore : Store :=
  { customers := [⟨"U2", "Bea", "0911111111", false, some "CN-CCCC", 0⟩], bookings := [] }

def c2wData : SubmitData :=
  ⟨"U2", "", "2024-05-21", "15:30", "Bea", "0911111111", "magnetic", true, "Bea"⟩

/-- The spec scenario for C4: 2024-05-20 configured with three slots,
one of which is occupied. -/
def c4Rows : List ConfigRow := [⟨"2024-05-20", ["11:00", "15:30", "20:00"]⟩]

def c4Books : List OccupiedRow := [⟨"2024-05-20", "11:00"⟩]

def c4Days : List DayAvailability :=
  (fetchAvailability 2024 4 (Except.ok c4Rows) (some c4Books)).toOption.getD []

def c4Rec : DayAvailability := c4Days.getD 19 (closedDay "")

/-- Rest-day scenario for C5: no configured entry at all for 2024-05-02
while an occupied row exists for that very date. -/
def c5Books : List OccupiedRow := [⟨"2024-05-02", "11:00"⟩]

def c5Days : List DayAvailability :=
  (fetchAvailability 2024 4 (Except.ok []) (some c5Books)).toOption.getD []

def c5Rec : DayAvailability := c5Days.getD 1 (closedDay "x")

/-- Witness input for C6: May 2024 with no configuration rows. -/
def c6Days : List DayAvailability :=
  (fetchAvailability 2024 4 (Except.ok []) none).toOption.getD []

/-! Bridging lemmas: the executable comparison is the lexicographic
string order. -/

theorem lexLt_iff_lex (as bs : List Char) :
    lexLt as bs = true ↔ List.Lex (· < ·) as bs := by
  induction as generalizing bs with
  | nil =>
    cases bs with
    | nil =>
      exact iff_of_false (by simp [lexLt]) (List.Lex.not_nil_right _ _)
    | cons b bs =>
      exact iff_of_true rfl List.Lex.nil
  | cons a as ih =>
    cases bs with
    | nil =>
      exact iff_of_false (by simp [lexLt]) (List.Lex.not_nil_right _ _)
    | cons b bs =>
      simp only [lexLt]
      by_cases hab : a < b
      · rw [if_pos hab]
        exact iff_of_true rfl (List.Lex.rel hab)
      · by_cases hba : b < a
        · rw [if_neg hab, if_pos hba]
          refine iff_of_false (by simp) ?_
          intro h
          cases h with
          | cons h => exact absurd hba (lt_irrefl _)
          | rel h => exact absurd h hab
        · have heq : a = b := le_antisymm (le_of_not_lt hba) (le_of_not_lt hab)
          subst heq
          rw [if_neg hab, if_neg hba]
          exact (ih bs).trans List.Lex.cons_iff.symm

theorem strLtb_iff (a b : String) : strLtb a b = true ↔ a < b := by
  rw [String.lt_iff_toList_lt]
  exact lexLt_iff_lex a.data b.data

theorem strLeb_iff (a b : String) : strLeb a b = true ↔ a ≤ b := by
  rw [← not_lt, ← strLtb_iff b a]
  simp [strLeb, strLtb]

/-! Helper lemmas shared by the claim theorems. -/

theorem mkDay_date (d : String) (rows : List ConfigRow) (bks : List OccupiedRow) :
    (mkDay d rows bks).date = d := by
  unfold mkDay
  cases configLookup rows d with
  | none => rfl
  | some cs =>
    by_cases h : cs.length = 0 <;> simp [h, closedDay]

theorem fetchAvailability_ok_eq (y m : Nat) (rows : List ConfigRow)
    (bd : Option (List OccupiedRow)) (days : List DayAvailability)
    (h : fetchAvailability y m (.ok rows) bd = .ok days) :
    days = (List.range' 1 (daysInMonth (y + m / 12) (m % 12))).map
      (fun i => mkDay (fmtDate (y + m / 12) (m % 12) i) rows (bd.getD [])) := by
  simp only [fetchAvailability, Except.ok.injEq] at h
  exact h.symm

theorem mem_fetchAvailability (y m : Nat) (rows : List ConfigRow)
    (bd : Option (List OccupiedRow)) (days : List DayAvailability)
    (h : fetchAvailability y m (.ok rows) bd = .ok days)
    (rec : DayAvailability) (hrec : rec ∈ days) :
    rec = mkDay rec.date rows (bd.getD []) := by
  have hdays := fetchAvailability_ok_eq y m rows bd days h
  subst hdays
  rcases List.mem_map.mp hrec with ⟨i, _, hi⟩
  have hd : rec.date = fmtDate (y + m / 12) (m % 12) i := by
    rw [← hi, mkDay_date]
  rw [hd, ← hi]

theorem mkDay_open (d : String) (rows : List ConfigRow) (bks : List OccupiedRow)
    (C : List String) (hC : configLookup rows d = some C) (hne : C ≠ []) :
    mkDay d rows bks =
      { date := d
        isAvailable := decide ((C.filter (fun s => ! (occupiedFor bks d).contains s)).length > 0)
        bookedCount := (occupiedFor bks d).length
        availableSlots := List.insertionSort (fun a b => strLeb a b = true)
          (C.filter (fun s => ! (occupiedFor bks d).contains s))
        totalSlots := C.length } := by
  unfold mkDay
  rw [hC]
  simp [List.length_eq_zero, hne]

theorem mkDay_closed (d : String) (rows : List ConfigRow) (bks : List OccupiedRow)
    (hC : configLookup rows d = none ∨ configLookup rows d = some []) :
    mkDay d rows bks = closedDay d := by
  unfold mkDay
  rcases hC with h | h <;> rw [h]
  simp

/-! Claim theorems. -/

/-- C3: if the configured-slots fetch fails, fetchAvailability fails with
an error (it does not return a fabricated all-closed month); if instead
the occupied-slots fetch fails, fetchAvailability still returns the full
month, exactly as if the occupied set were empty. -/
theorem fetchAvailability_failure_semantics (y m : Nat) (e : String)
    (bd : Option (List OccupiedRow)) (rows : List ConfigRow) :
    fetchAvailability y m (.error e) bd = .error "無法讀取排班資料"
    ∧ fetchAvailability y m (.ok rows) none = fetchAvailability y m (.ok rows) (some [])
    ∧ ∃ days, fetchAvailability y m (.ok rows) none = .ok days
      ∧ days.length = daysInMonth (y + m / 12) (m % 12) :=
  ⟨rfl, rfl, _, rfl, by simp [fetchAvailability]⟩

/-- C7: the customer upsert happens strictly before the booking insert:
an upsert failure aborts with an error leaving the store untouched (no
booking insert is attempted), and a booking-insert failure propagates an
error while the already-committed upsert stays in the store and no
booking row is added. -/
theorem submitBooking_two_phase (data : SubmitData) (bf nf : Bool)
    (url : Option String) (now : Nat) (s : Store) :
    submitBooking data true bf nf url now s = (s, [], .error "無法建立顧客資料")
    ∧ submitBooking data false true nf url now s =
        ({ s with customers := upsertCustomer (customerPayload data now) s.customers },
          [], .error "booking insert failed")
    ∧ (submitBooking data false true nf url now s).1.bookings = s.bookings :=
  ⟨rfl, rfl, rfl⟩

/-- C9: when both writes succeed, submitBooking returns success, and the
outcome of the notification step (any failure constructing or dispatching
the webhook payload, or the absence of a webhook URL) neither changes the
caller-visible result nor the final store. -/
theorem submitBooking_notification_invisible (data : SubmitData) (nf : Bool)
    (url : Option String) (now : Nat) (s : Store) :
    (submitBooking data false false nf url now s).2.2 = .ok ()
    ∧ (submitBooking data false false nf url now s).1 =
        (submitBooking data false false false url now s).1 :=
  ⟨rfl, rfl⟩

/-- C10: a persistence error in the customer-profile lookup makes
getCustomerProfile return null instead of propagating, and the App init
then takes the brand-new-customer branch: not a returning user and not
blacklisted, so the blacklist gate fails open. -/
theorem getCustomerProfile_fails_open (userId e displayName freshCode : String) :
    getCustomerProfile userId (.error e) = none
    ∧ (appInit (getCustomerProfile userId (.error e)) displayName freshCode).isBlacklisted = false
    ∧ (appInit (getCustomerProfile userId (.error e)) displayName freshCode).isReturningUser
        = false := by
  have hnone : getCustomerProfile userId (.error e) = none := by
    by_cases h : userId = "" <;> simp [getCustomerProfile, h]
  refine ⟨hnone, ?_, ?_⟩ <;> rw [hnone] <;> rfl

/-- C1 counterexample: on 2024-05-20 (a configured day), the record
returned by fetchAvailability has bookedCount 1 — the raw occupied
count — while the cardinality of the intersection of the occupied slots
with the configured slots is 0: an occupied slot outside the configured
set does inflate the count. -/
theorem bookedCount_not_intersection :
    fetchAvailability 2024 4 (Except.ok c1Rows) (some c1Books) = .ok c1Days
    ∧ c1Rec ∈ c1Days
    ∧ configLookup c1Rows c1Rec.date = some ["11:00"]
    ∧ c1Rec.bookedCount = 1
    ∧ specBookedCount (occupiedFor c1Books c1Rec.date) ["11:00"] = 0
    ∧ c1Rec.bookedCount ≠ specBookedCount (occupiedFor c1Books c1Rec.date) ["11:00"] :=
  ⟨rfl, by decide, by decide, by decide, by decide, by decide⟩

/-- C1 amended: for every day of the resolved month that has configured
slots, bookedCount equals the raw number of occupied entries recorded
for that day — duplicates and occupied slots outside the configured set
are all counted. -/
theorem fetchAvailability_bookedCount_raw (y m : Nat) (rows : List ConfigRow)
    (bd : Option (List OccupiedRow)) (days : List DayAvailability)
    (h : fetchAvailability y m (.ok rows) bd = .ok days)
    (rec : DayAvailability) (hrec : rec ∈ days)
    (C : List String) (hC : configLookup rows rec.date = some C) (hne : C ≠ []) :
    rec.bookedCount = (occupiedFor (bd.getD []) rec.date).length := by
  rw [mem_fetchAvailability y m rows bd days h rec hrec,
    mkDay_open rec.date rows (bd.getD []) C hC hne]

theorem fetchAvailability_bookedCount_raw_witness :
    c1Rec.bookedCount = (occupiedFor ((some c1Books).getD []) c1Rec.date).length :=
  fetchAvailability_bookedCount_raw 2024 4 c1Rows (some c1Books) c1Days rfl
    c1Rec (by decide) ["11:00"] (by decide) (by decide)

/-- C2 counterexample: the submission succeeds and replaces the already
assigned stored member code CN-AAAA of the same identity with the
different value CN-BBBB. -/
theorem submitBooking_overwrites_member_code :
    (submitBooking c2Data false false false none 0 c2Store).2.2 = .ok ()
    ∧ (lookupCustomer (submitBooking c2Data false false false none 0 c2Store).1.customers
        "U1").map (fun c => c.member_code) = some (some "CN-BBBB")
    ∧ (lookupCustomer c2Store.customers "U1").map (fun c => c.member_code)
        = some (some "CN-AAAA")
    ∧ some (some "CN-BBBB") ≠ some (some "CN-AAAA") :=
  ⟨rfl, by decide, by decide, by decide⟩

/-- C2 amended: a submission with an empty memberCode never changes any
stored member code (each stored customer row keeps its code, so an
assigned code is never cleared); a submission with a non-empty
memberCode from an existing identity sets the stored code of that identity to
the supplied value, overwriting a previously assigned different code. -/
theorem submitBooking_member_code_policy (data : SubmitData) (bookFail nf : Bool)
    (url : Option String) (now : Nat) (s : Store) :
    (data.memberCode = "" →
      ∀ c0 ∈ s.customers,
        ∃ c1 ∈ (submitBooking data false bookFail nf url now s).1.customers,
          c1.user_id = c0.user_id ∧ c1.member_code = c0.member_code)
    ∧ (data.memberCode ≠ "" →
      ∀ c0 ∈ s.customers, c0.user_id = data.userId →
        ∃ c1 ∈ (submitBooking data false bookFail nf url now s).1.customers,
          c1.user_id = data.userId ∧ c1.member_code = some data.memberCode) := by
  have hcust : (submitBooking data false bookFail nf url now s).1.customers
      = upsertCustomer (customerPayload data now) s.customers := by
    cases bookFail <;> rfl
  constructor
  · intro hmc c0 hc0
    rw [hcust]
    unfold upsertCustomer
    by_cases hany : s.customers.any (fun c => c.user_id == (customerPayload data now).user_id)
    · rw [if_pos hany]
      refine ⟨_, List.mem_map_of_mem _ hc0, ?_⟩
      by_cases heq : c0.user_id == (customerPayload data now).user_id
      · simp only [heq, if_pos]
        simp [customerPayload, hmc]
      · simp only [heq]
        simp
    · rw [if_neg hany]
      exact ⟨c0, List.mem_append_left _ hc0, rfl, rfl⟩
  · intro hmc c0 hc0 hid
    rw [hcust]
    unfold upsertCustomer
    have hpay : (customerPayload data now).user_id = data.userId := rfl
    have hbeq : c0.user_id == (customerPayload data now).user_id := by
      rw [hpay, hid]
      exact beq_self_eq_true _
    have hany : s.customers.any (fun c => c.user_id == (customerPayload data now).user_id) := by
      exact List.any_eq_true.mpr ⟨c0, hc0, hbeq⟩
    rw [if_pos hany]
    refine ⟨_, List.mem_map_of_mem _ hc0, ?_⟩
    simp only [hbeq, if_pos]
    constructor
    · exact hid
    · simp [customerPayload, hmc]

theorem submitBooking_member_code_policy_witness :
    ∃ c1 ∈ (submitBooking c2wData false false false none 0 c2wStore).1.customers,
      c1.user_id = (⟨"U2", "Bea", "0911111111", false, some "CN-CCCC", 0⟩ : Customer).user_id
      ∧ c1.member_code
          = (⟨"U2", "Bea", "0911111111", false, some "CN-CCCC", 0⟩ : Customer).member_code :=
  (submitBooking_member_code_policy c2wData false false none 0 c2wStore).1 rfl
    ⟨"U2", "Bea", "0911111111", false, some "CN-CCCC", 0⟩ (by decide)

/-- C4: for every day of the resolved month with non-empty configured
slots C and occupied slots O, the returned record has availableSlots
equal to C minus O sorted ascending in lexicographic string order (so it
holds exactly the configured slots that are not occupied, in
nondecreasing string order), isAvailable true exactly when that
difference is non-empty, and totalSlots the size of C. -/
theorem fetchAvailability_open_day (y m : Nat) (rows : List ConfigRow)
    (bd : Option (List OccupiedRow)) (days : List DayAvailability)
    (h : fetchAvailability y m (.ok rows) bd = .ok days)
    (rec : DayAvailability) (hrec : rec ∈ days)
    (C : List String) (hC : configLookup rows rec.date = some C) (hne : C ≠ []) :
    rec.availableSlots
        = List.insertionSort (fun a b => strLeb a b = true)
            (C.filter (fun s => ! (occupiedFor (bd.getD []) rec.date).contains s))
    ∧ List.Sorted (fun a b : String => a ≤ b) rec.availableSlots
    ∧ (∀ s, s ∈ rec.availableSlots ↔ s ∈ C ∧ s ∉ occupiedFor (bd.getD []) rec.date)
    ∧ (rec.isAvailable = true ↔ ∃ s ∈ C, s ∉ occupiedFor (bd.getD []) rec.date)
    ∧ rec.totalSlots = C.length := by
  rw [mem_fetchAvailability y m rows bd days h rec hrec,
    mkDay_open rec.date rows (bd.getD []) C hC hne]
  haveI htot : IsTotal String (fun a b => strLeb a b = true) := by
    constructor
    intro a b
    rw [strLeb_iff, strLeb_iff]
    exact le_total a b
  haveI htr : IsTrans String (fun a b => strLeb a b = true) := by
    constructor
    intro a b c hab hbc
    rw [strLeb_iff] at hab hbc ⊢
    exact le_trans hab hbc
  refine ⟨rfl, ?_, ?_, ?_, rfl⟩
  · have hs := List.sorted_insertionSort (fun a b => strLeb a b = true)
      (C.filter (fun s => ! (occupiedFor (bd.getD []) rec.date).contains s))
    exact hs.imp (fun hab => (strLeb_iff _ _).mp hab)
  · intro s
    simp [List.mem_insertionSort, List.mem_filter]
  · simp [List.length_pos_iff_exists_mem, List.mem_filter]

theorem fetchAvailability_open_day_witness :
    c4Rec.availableSlots
        = List.insertionSort (fun a b => strLeb a b = true)
            ((["11:00", "15:30", "20:00"] : List String).filter
              (fun s => ! (occupiedFor ((some c4Books).getD []) c4Rec.date).contains s))
    ∧ c4Rec.totalSlots = (["11:00", "15:30", "20:00"] : List String).length :=
  let h := fetchAvailability_open_day 2024 4 c4Rows (some c4Books) c4Days rfl c4Rec
    (by decide) ["11:00", "15:30", "20:00"] (by decide) (by decide)
  ⟨h.1, h.2.2.2.2⟩

/-- C5: for every day of the resolved month whose configured-slots entry
is absent or empty, the returned record is the closed record
(isAvailable false, bookedCount 0, no availableSlots, totalSlots 0),
regardless of the occupied slots: a rest day is indistinguishable from
an unconfigured day. -/
theorem fetchAvailability_rest_day (y m : Nat) (rows : List ConfigRow)
    (bd : Option (List OccupiedRow)) (days : List DayAvailability)
    (h : fetchAvailability y m (.ok rows) bd = .ok days)
    (rec : DayAvailability) (hrec : rec ∈ days)
    (hC : configLookup rows rec.date = none ∨ configLookup rows rec.date = some []) :
    rec.isAvailable = false ∧ rec.bookedCount = 0 ∧ rec.availableSlots = []
    ∧ rec.totalSlots = 0 := by
  rw [mem_fetchAvailability y m rows bd days h rec hrec, mkDay_closed rec.date rows _ hC]
  exact ⟨rfl, rfl, rfl, rfl⟩

theorem fetchAvailability_rest_day_witness :
    c5Rec.isAvailable = false ∧ c5Rec.bookedCount = 0 ∧ c5Rec.availableSlots = []
    ∧ c5Rec.totalSlots = 0 :=
  fetchAvailability_rest_day 2024 4 [] (some c5Books) c5Days rfl c5Rec
    (by decide) (Or.inl (by decide))

/-- C8: the calendar slot filter offers a slot only if its instant is
strictly after now plus the 48-hour lead time, and a slot whose instant
is at or before that cutoff is never offered. -/
theorem offeredSlots_lead_time (now dayStart : Nat) (slots : List String) (slot : String) :
    (slot ∈ offeredSlots now dayStart slots →
      ∃ t, slotMinutes slot = some t ∧ bookingCutoff now < dayStart + t)
    ∧ (∀ t, slotMinutes slot = some t → dayStart + t ≤ bookingCutoff now →
        slot ∉ offeredSlots now dayStart slots) := by
  constructor
  · intro hmem
    have hck : checkSlotTime now dayStart slot = true := (List.mem_filter.mp hmem).2
    unfold checkSlotTime at hck
    cases hsm : slotMinutes slot with
    | none =>
      rw [hsm] at hck
      exact nomatch hck
    | some t =>
      rw [hsm] at hck
      exact ⟨t, rfl, of_decide_eq_true hck⟩
  · intro t hsm hle hmem
    have hck : checkSlotTime now dayStart slot = true := (List.mem_filter.mp hmem).2
    unfold checkSlotTime at hck
    rw [hsm] at hck
    exact absurd (of_decide_eq_true hck) (not_lt.mpr hle)

theorem offeredSlots_lead_time_witness :
    "09:00" ∈ offeredSlots 0 2880 ["09:00"]
    ∧ "09:00" ∉ offeredSlots 0 1440 ["09:00"] :=
  ⟨by decide, (offeredSlots_lead_time 0 1440 ["09:00"] "09:00").2 540 (by decide) (by decide)⟩

/-! Date-order lemmas for the month shape claim. -/

theorem lexLt_append (p : List Char) {a b : List Char} (h : lexLt a b = true) :
    lexLt (p ++ a) (p ++ b) = true := by
  induction p with
  | nil => exact h
  | cons c p ih =>
    show lexLt (c :: (p ++ a)) (c :: (p ++ b)) = true
    simp only [lexLt]
    rw [if_neg (lt_irrefl c), if_neg (lt_irrefl c)]
    exact ih

theorem padNat2_lt : ∀ d2 : Nat, d2 < 32 → ∀ d1 : Nat, d1 < 32 → d1 < d2 →
    lexLt (padNat 2 d1).data (padNat 2 d2).data = true := by decide

theorem fmtDate_data (y m d : Nat) :
    (fmtDate y m d).data
      = (padNat 4 y ++ "-" ++ padNat 2 (m + 1) ++ "-").data ++ (padNat 2 d).data := rfl

theorem fmtDate_lt (y m : Nat) {d1 d2 : Nat} (h1 : d1 < d2) (h2 : d2 < 32) :
    fmtDate y m d1 < fmtDate y m d2 := by
  rw [← strLtb_iff]
  show lexLt (fmtDate y m d1).data (fmtDate y m d2).data = true
  rw [fmtDate_data, fmtDate_data]
  exact lexLt_append _ (padNat2_lt d2 h2 d1 (h1.trans h2) h1)

theorem daysInMonth_le31 (y m : Nat) : daysInMonth y m ≤ 31 := by
  unfold daysInMonth
  split_ifs <;> omega

/-- C6: for every year and month, a successful fetchAvailability returns
exactly as many day records as the (normalised) month has calendar days,
the record at index i carries the date string of day i+1, and the dates
are strictly ascending in the string order. -/
theorem fetchAvailability_month_shape (y m : Nat) (rows : List ConfigRow)
    (bd : Option (List OccupiedRow)) (days : List DayAvailability)
    (h : fetchAvailability y m (.ok rows) bd = .ok days) :
    days.length = daysInMonth (y + m / 12) (m % 12)
    ∧ (∀ i, (hi : i < days.length) →
        (days.get ⟨i, hi⟩).date = fmtDate (y + m / 12) (m % 12) (i + 1))
    ∧ days.Pairwise (fun a b => a.date < b.date) := by
  have hdays := fetchAvailability_ok_eq y m rows bd days h
  subst hdays
  refine ⟨by simp, ?_, ?_⟩
  · intro i hi
    rw [List.get_eq_getElem, List.getElem_map, mkDay_date, List.getElem_range']
    congr 1
    simp only [Fin.val_mk]
    omega
  · rw [List.pairwise_map]
    refine List.pairwise_iff_getElem.mpr ?_
    intro i j hi hj hij
    rw [List.length_range'] at hi hj
    rw [List.getElem_range', List.getElem_range', mkDay_date, mkDay_date]
    apply fmtDate_lt
    · omega
    · have := daysInMonth_le31 (y + m / 12) (m % 12)
      omega

theorem fetchAvailability_month_shape_witness :
    c6Days.length = daysInMonth (2024 + 4 / 12) (4 % 12)
    ∧ c6Days.Pairwise (fun a b => a.date < b.date) :=
  ⟨(fetchAvailability_month_shape 2024 4 [] none c6Days rfl).1,
   (fetchAvailability_month_shape 2024 4 [] none c6Days rfl).2.2⟩
